import Mathlib

/-!
Verification of the sensor-fusion pipeline of src/main.py: the lidar
serial-packet decode loop, the distance gate, the settings validation,
the warning-flash behaviour, the lidar publish step, and an interleaving
model of the shared-state lock discipline.
-/

namespace PiFusion

/-- Byte-stream decode loop of LidarSensor.read_available, src/main.py
lines 57 to 63: while at least 9 bytes are buffered, a buffer whose first
two bytes are the sync marker 0x59 0x59 yields the distance
buffer[2] + buffer[3] * 256 and 9 bytes are consumed; otherwise exactly one
leading byte is dropped.  Returns the decoded distances in order, paired
with the bytes left in the buffer. -/
def parseBuf (b : List Nat) : List Nat × List Nat :=
  if h : 9 ≤ b.length then
    if b.getD 0 0 = 0x59 ∧ b.getD 1 0 = 0x59 then
      let r := parseBuf (b.drop 9)
      ((b.getD 2 0 + b.getD 3 0 * 256) :: r.1, r.2)
    else
      parseBuf (b.drop 1)
  else ([], b)
termination_by b.length
decreasing_by
  · simp only [List.length_drop]; omega
  · simp only [List.length_drop]; omega

/-- One poll of LidarSensor.read_available, src/main.py lines 48 to 67, at
the byte level: the freshly read data is appended to the pending buffer and
the decode loop runs; an empty read returns no readings and leaves the
buffer untouched.  Result: decoded distances paired with the new pending
buffer. -/
def read_available (buffer data : List Nat) : List Nat × List Nat :=
  if data = [] then ([], buffer)
  else parseBuf (buffer ++ data)

theorem parseBuf_short (b : List Nat) (h : b.length < 9) : parseBuf b = ([], b) := by
  rw [parseBuf, dif_neg (by omega)]

theorem parseBuf_garbage_cons (g : Nat) (rest : List Nat) (hg : g ≠ 0x59)
    (h : 9 ≤ (g :: rest).length) : parseBuf (g :: rest) = parseBuf rest := by
  rw [parseBuf, dif_pos h, if_neg]
  · rfl
  · intro hc
    exact hg (by simpa using hc.1)

theorem parseBuf_packet (b2 b3 t1 t2 t3 t4 t5 : Nat) (rest : List Nat) :
    parseBuf (0x59 :: 0x59 :: b2 :: b3 :: t1 :: t2 :: t3 :: t4 :: t5 :: rest) =
      ((b2 + b3 * 256) :: (parseBuf rest).1, (parseBuf rest).2) := by
  rw [parseBuf, dif_pos (by simp)]
  rw [if_pos (by simp)]
  simp [List.getD]

theorem parseBuf_rem_lt (b : List Nat) : (parseBuf b).2.length < 9 := by
  have key : ∀ n, ∀ b : List Nat, b.length ≤ n → (parseBuf b).2.length < 9 := by
    intro n
    induction n with
    | zero =>
      intro b hb
      rw [parseBuf_short b (by omega)]
      show b.length < 9
      omega
    | succ n ih =>
      intro b hb
      by_cases h : 9 ≤ b.length
      · rw [parseBuf, dif_pos h]
        split
        · simpa using ih (b.drop 9) (by simp only [List.length_drop]; omega)
        · exact ih (b.drop 1) (by simp only [List.length_drop]; omega)
      · rw [parseBuf_short b (by omega)]
        show b.length < 9
        omega
  exact key b.length b le_rfl

theorem parseBuf_garbage_append (gs rest : List Nat) (hg : ∀ g ∈ gs, g ≠ 0x59) :
    (parseBuf (gs ++ rest)).1 = (parseBuf rest).1 := by
  induction gs with
  | nil => simp
  | cons g gs ih =>
    have hg2 : ∀ x ∈ gs, x ≠ 0x59 := fun x hx => hg x (List.mem_cons_of_mem _ hx)
    by_cases h : 9 ≤ (g :: (gs ++ rest)).length
    · rw [List.cons_append, parseBuf_garbage_cons g _ (hg g (List.mem_cons_self g gs)) h]
      exact ih hg2
    · rw [List.cons_append, parseBuf_short _ (by omega)]
      rw [parseBuf_short rest (by simp only [List.length_cons, List.length_append] at h; omega)]

/-- One segment of a serial byte stream: either a run of garbage bytes or a
valid 9-byte packet carrying a distance d and five trailing bytes (signal
strength, reserved and checksum bytes, which the decode loop never
inspects). -/
inductive Seg
  | garbage (bs : List Nat)
  | packet (d t1 t2 t3 t4 t5 : Nat)

/-- Byte encoding of a segment.  A packet is the sync marker 0x59 0x59, the
distance in little-endian order, then the five trailing bytes. -/
def Seg.bytes : Seg → List Nat
  | .garbage bs => bs
  | .packet d t1 t2 t3 t4 t5 => [0x59, 0x59, d % 256, d / 256, t1, t2, t3, t4, t5]

/-- Concatenated byte stream of a list of segments. -/
def segsBytes : List Seg → List Nat
  | [] => []
  | s :: ss => s.bytes ++ segsBytes ss

/-- Distances encoded by the packet segments of a stream, in order. -/
def segsDistances : List Seg → List Nat
  | [] => []
  | .garbage _ :: ss => segsDistances ss
  | .packet d _ _ _ _ _ :: ss => d :: segsDistances ss

/-- Well-formed segment: a garbage byte never equals the sync byte 0x59, and
a packet distance fits in two bytes. -/
def SegWF : Seg → Prop
  | .garbage bs => ∀ b ∈ bs, b ≠ 0x59
  | .packet d _ _ _ _ _ => d < 65536

theorem parseBuf_segsBytes (segs : List Seg) (h : ∀ s ∈ segs, SegWF s) :
    (parseBuf (segsBytes segs)).1 = segsDistances segs := by
  induction segs with
  | nil => simp [segsBytes, segsDistances, parseBuf_short]
  | cons s ss ih =>
    have hss : ∀ x ∈ ss, SegWF x := fun x hx => h x (List.mem_cons_of_mem _ hx)
    cases s with
    | garbage bs =>
      have hb : ∀ b ∈ bs, b ≠ 0x59 := h (.garbage bs) (List.mem_cons_self _ ss)
      rw [segsBytes, segsDistances, Seg.bytes, parseBuf_garbage_append bs _ hb]
      exact ih hss
    | packet d t1 t2 t3 t4 t5 =>
      rw [segsBytes, segsDistances, Seg.bytes]
      show (parseBuf (0x59 :: 0x59 :: (d % 256) :: (d / 256) ::
        t1 :: t2 :: t3 :: t4 :: t5 :: segsBytes ss)).1 = d :: segsDistances ss
      rw [parseBuf_packet]
      have hd : d % 256 + d / 256 * 256 = d := by
        rw [Nat.mul_comm]
        exact Nat.mod_add_div d 256
      rw [hd]
      exact congrArg (d :: ·) (ih hss)

theorem segsDistances_of_bytes_nil (segs : List Seg) (h : segsBytes segs = []) :
    segsDistances segs = [] := by
  induction segs with
  | nil => rfl
  | cons s ss ih =>
    cases s with
    | garbage bs =>
      rw [segsBytes, Seg.bytes] at h
      rw [segsDistances]
      exact ih (List.append_eq_nil.mp h).2
    | packet d t1 t2 t3 t4 t5 => simp [segsBytes, Seg.bytes] at h

/-- C2, counterexample: a garbage byte 0x59 immediately before a valid packet
makes the decode loop lock onto a false sync marker, so the byte stream built
from the garbage run 0x59 followed by a valid packet with distance 50 decodes
to the single bogus reading 12889 instead of 50: the readings are not exactly
the distances encoded in the valid packets. -/
theorem c2_interleave_counterexample :
    segsBytes [Seg.garbage [0x59], Seg.packet 50 10 0 0 0 0] =
      [0x59, 0x59, 0x59, 50, 0, 10, 0, 0, 0, 0] ∧
    segsDistances [Seg.garbage [0x59], Seg.packet 50 10 0 0 0 0] = [50] ∧
    (read_available [] [0x59, 0x59, 0x59, 50, 0, 10, 0, 0, 0, 0]).1 = [12889] ∧
    ([12889] : List Nat) ≠ [50] := by
  refine ⟨by simp [segsBytes, Seg.bytes], by simp [segsDistances], ?_, by decide⟩
  simp [read_available, parseBuf]

/-- C2, amended: for every byte stream formed by interleaving valid 9-byte
packets (sync marker 0x59 0x59, little-endian distance in bytes 2 and 3)
with garbage runs whose bytes all differ from the sync byte 0x59, feeding the
stream to a parser with an empty pending buffer returns exactly the distances
encoded in the valid packets, in order, and no other readings.  In particular
the stream 0x10, 0x59, 0x59, 50, 0, 10, 0, 0, 0, 0x00 yields exactly the
single reading 50 (see the witness). -/
theorem c2_parser_extracts_packet_distances (segs : List Seg)
    (h : ∀ s ∈ segs, SegWF s) :
    (read_available [] (segsBytes segs)).1 = segsDistances segs := by
  by_cases hb : segsBytes segs = []
  · rw [hb, read_available, if_pos rfl, segsDistances_of_bytes_nil segs hb]
  · rw [read_available, if_neg hb, List.nil_append]
    exact parseBuf_segsBytes segs h

/-- Witness for C2: the example stream of the claim, a garbage byte 0x10
followed by one valid packet carrying distance 50, is well formed and decodes
to exactly the single reading 50. -/
theorem c2_parser_extracts_packet_distances_witness :
    (∀ s ∈ [Seg.garbage [0x10], Seg.packet 50 10 0 0 0 0], SegWF s) ∧
    (read_available [] [0x10, 0x59, 0x59, 50, 0, 10, 0, 0, 0, 0]).1 = [50] := by
  have hwf : ∀ s ∈ [Seg.garbage [0x10], Seg.packet 50 10 0 0 0 0], SegWF s := by
    intro s hs
    rcases List.mem_cons.mp hs with rfl | hs2
    · simp [SegWF]
    rcases List.mem_cons.mp hs2 with rfl | hs3
    · simp [SegWF]
    simp at hs3
  refine ⟨hwf, ?_⟩
  have h50 := c2_parser_extracts_packet_distances
    [Seg.garbage [0x10], Seg.packet 50 10 0 0 0 0] hwf
  simpa [segsBytes, Seg.bytes, segsDistances] using h50

/-- C8: the pending buffer of the decode loop is bounded.  Starting from a
pending buffer shorter than one packet, after any poll, whatever the data
read from the serial port, fewer than 9 bytes of unparsed input remain
buffered. -/
theorem c8_pending_buffer_bounded (buffer data : List Nat)
    (h : buffer.length < 9) : (read_available buffer data).2.length < 9 := by
  rw [read_available]
  split
  · simpa using h
  · exact parseBuf_rem_lt _

/-- Witness for C8: a poll of ten garbage-laden bytes from an empty pending
buffer leaves fewer than 9 bytes buffered. -/
theorem c8_pending_buffer_bounded_witness :
    ([] : List Nat).length < 9 ∧
    (read_available [] [0x59, 0x59, 0x59, 50, 0, 10, 0, 0, 0, 0]).2.length < 9 :=
  ⟨by decide, c8_pending_buffer_bounded [] [0x59, 0x59, 0x59, 50, 0, 10, 0, 0, 0, 0] (by decide)⟩

/-- Detection range held in the CameraApp fields min_distance and
max_distance, initialised to 50 and 200 in the constructor, src/main.py
lines 113 to 114. -/
structure DetectionRange where
  min_distance : Int
  max_distance : Int
deriving DecidableEq

/-- Initial detection range of the constructor: 50 to 200 cm. -/
def initial_range : DetectionRange := { min_distance := 50, max_distance := 200 }

/-- Distance gate of CameraApp.update_gui, src/main.py line 341: the chained
comparison min_distance less-or-equal distance less-or-equal max_distance. -/
def gate_open (r : DetectionRange) (distance : Int) : Bool :=
  decide (r.min_distance ≤ distance ∧ distance ≤ r.max_distance)

/-- Result of the Python int conversion of one settings entry: a numeric
string yields its integer value, anything else raises ValueError. -/
inductive SettingsInput
  | num (n : Int)
  | nonNumeric
deriving DecidableEq

/-- Outcome of CameraApp.apply_settings: success, or the specific error
dialog shown for non-numeric input, a negative value, or min not below
max. -/
inductive SettingsResult
  | ok
  | errNonNumeric
  | errNegative
  | errMinGeMax
deriving DecidableEq

/-- CameraApp.apply_settings, src/main.py lines 239 to 260: both entries are
converted to int (ValueError on failure), negative values are rejected, min
greater-or-equal max is rejected; only then are the two range fields
assigned.  Returns the resulting range together with the outcome. -/
def apply_settings (r : DetectionRange) (mi ma : SettingsInput) :
    DetectionRange × SettingsResult :=
  match mi, ma with
  | .num mn, .num mx =>
    if mn < 0 ∨ mx < 0 then (r, .errNegative)
    else if mn ≥ mx then (r, .errMinGeMax)
    else ({ min_distance := mn, max_distance := mx }, .ok)
  | _, _ => (r, .errNonNumeric)

/-- C4: apply_settings fails exactly when an input is non-numeric, a value
is negative, or min is not below max; every failure keeps the previous
range; success installs exactly the requested bounds so that subsequent
gating uses them immediately; the pair (100, 50) is rejected keeping the
prior range, and the pair (50, 200) succeeds. -/
theorem c4_apply_settings_validation (r : DetectionRange) (mi ma : SettingsInput) :
    ((apply_settings r mi ma).2 ≠ .ok ↔
      (mi = .nonNumeric ∨ ma = .nonNumeric ∨
        (∃ mn mx, mi = .num mn ∧ ma = .num mx ∧ (mn < 0 ∨ mx < 0 ∨ mn ≥ mx)))) ∧
    ((apply_settings r mi ma).2 ≠ .ok → (apply_settings r mi ma).1 = r) ∧
    (∀ mn mx, mi = .num mn → ma = .num mx → (apply_settings r mi ma).2 = .ok →
      (apply_settings r mi ma).1 = { min_distance := mn, max_distance := mx }) ∧
    apply_settings r (.num 100) (.num 50) = (r, .errMinGeMax) ∧
    apply_settings r (.num 50) (.num 200) = ({ min_distance := 50, max_distance := 200 }, .ok) ∧
    (∀ d, gate_open (apply_settings r (.num 50) (.num 200)).1 d =
      gate_open { min_distance := 50, max_distance := 200 } d) := by
  refine ⟨?_, ?_, ?_, by simp [apply_settings], by simp [apply_settings], ?_⟩
  · cases mi with
    | nonNumeric => simp [apply_settings]
    | num mn =>
      cases ma with
      | nonNumeric => simp [apply_settings]
      | num mx =>
        simp only [apply_settings]
        split_ifs with h1 h2
        · simp
          omega
        · simp
          omega
        · simp
          omega
  · cases mi with
    | nonNumeric => simp [apply_settings]
    | num mn =>
      cases ma with
      | nonNumeric => simp [apply_settings]
      | num mx =>
        intro hne
        simp only [apply_settings] at hne ⊢
        split_ifs at hne ⊢ with h1 h2
        · rfl
        · rfl
        · exact absurd rfl hne
  · intro mn mx hmi hma hok
    subst hmi
    subst hma
    simp only [apply_settings] at hok ⊢
    split_ifs at hok ⊢ with h1 h2
    all_goals simp_all
  · intro d
    simp [apply_settings]

/-- Witness for C4: applying the settings pair (100, 50) to the initial
range is rejected and the active range is retained unchanged. -/
theorem c4_apply_settings_validation_witness :
    (apply_settings initial_range (.num 100) (.num 50)).2 ≠ .ok ∧
    (apply_settings initial_range (.num 100) (.num 50)).1 = initial_range := by
  have h := c4_apply_settings_validation initial_range (.num 100) (.num 50)
  have hne : (apply_settings initial_range (.num 100) (.num 50)).2 ≠ .ok := by
    rw [h.2.2.2.1]
    decide
  exact ⟨hne, h.2.1 hne⟩

/-- Invariant of the detection range: zero below-or-equal min strictly below
max. -/
def rangeInv (r : DetectionRange) : Prop :=
  0 ≤ r.min_distance ∧ r.min_distance < r.max_distance

theorem apply_settings_preserves_inv (r : DetectionRange) (mi ma : SettingsInput)
    (h : rangeInv r) : rangeInv (apply_settings r mi ma).1 := by
  cases mi with
  | nonNumeric => simpa [apply_settings] using h
  | num mn =>
    cases ma with
    | nonNumeric => simpa [apply_settings] using h
    | num mx =>
      simp only [apply_settings]
      split
      · exact h
      · split
        · exact h
        · refine ⟨?_, ?_⟩
          · show (0 : Int) ≤ mn
            omega
          · show mn < mx
            omega

/-- Sequence of apply_settings operations starting from a range: the only
mutations the range fields ever receive after the constructor. -/
def apply_settings_runs (r : DetectionRange)
    (ops : List (SettingsInput × SettingsInput)) : DetectionRange :=
  ops.foldl (fun s p => (apply_settings s p.1 p.2).1) r

theorem apply_settings_runs_inv (ops : List (SettingsInput × SettingsInput)) :
    ∀ r : DetectionRange, rangeInv r → rangeInv (apply_settings_runs r ops) := by
  induction ops with
  | nil => intro r h; exact h
  | cons p ops ih =>
    intro r h
    exact ih _ (apply_settings_preserves_inv r p.1 p.2 h)

/-- C5: the invariant zero below-or-equal min strictly below max holds of
the initial range 50 to 200 and is preserved by every sequence of
apply_settings operations, the only operations that mutate the range, so
every gating decision uses a range satisfying the invariant. -/
theorem c5_range_invariant (ops : List (SettingsInput × SettingsInput)) :
    rangeInv initial_range ∧ rangeInv (apply_settings_runs initial_range ops) := by
  have h0 : rangeInv initial_range := by constructor <;> decide
  exact ⟨h0, apply_settings_runs_inv ops initial_range h0⟩

/-- C6: the gate is open exactly when min-or-more and max-or-less holds of
the distance, and with the range 50 to 200 the distance 30 closes the gate,
150 opens it and 250 closes it. -/
theorem c6_gate_iff (r : DetectionRange) (d : Int) :
    (gate_open r d = true ↔ r.min_distance ≤ d ∧ d ≤ r.max_distance) ∧
    gate_open initial_range 30 = false ∧
    gate_open initial_range 150 = true ∧
    gate_open initial_range 250 = false := by
  exact ⟨by simp [gate_open], by decide, by decide, by decide⟩

/-- Outcome of one invocation of the YOLO model: the list of detected labels
on success, or a raised exception. -/
inductive DetectResult
  | ok (labels : List String)
  | failure

/-- State of CameraApp touched by one GUI tick.  Frames are identifiers;
latest_frame and latest_distance are the shared snapshot fields, t_jpg is
the frame currently stored in the file t.jpg on disk (none when no frame of
this run was ever saved there).  The imwrite call that would refresh t.jpg
inside update_gui is commented out in the source, src/main.py line 337, so
no tick ever writes t_jpg. -/
structure AppState where
  running : Bool
  latest_frame : Option Nat
  latest_distance : Int
  range : DetectionRange
  warning_text : String
  t_jpg : Option Nat

/-- Warning message built in CameraApp.run_yolo, src/main.py line 451. -/
def warning_message (labels : List String) : String :=
  "DİKKAT: " ++ String.intercalate ", " labels ++ " tespit edildi!"

/-- Warning-text effect of one tick of CameraApp.update_gui, src/main.py
lines 320 to 353, with CameraApp.run_yolo inlined, src/main.py lines 442 to
457: nothing when not running; when the gate is open the YOLO model is
invoked on the file t.jpg, nonempty detections set the warning text and
empty detections or an exception clear it; when the gate is closed the
warning text is cleared. -/
def update_gui (s : AppState) (detect : Option Nat → DetectResult) : AppState :=
  if s.running then
    if gate_open s.range s.latest_distance then
      match detect s.t_jpg with
      | .ok labels =>
        if labels.isEmpty then { s with warning_text := "" }
        else { s with warning_text := warning_message labels }
      | .failure => { s with warning_text := "" }
    else { s with warning_text := "" }
  else s

/-- Image the YOLO model is invoked on during one tick: when running with
the gate open, the model is called on the file t.jpg, src/main.py line 443;
none when the detector is not invoked at all. -/
def yolo_input (s : AppState) : Option (Option Nat) :=
  if s.running && gate_open s.range s.latest_distance then some s.t_jpg else none

/-- C1: the claim fails on the source.  When the gate is open the YOLO model
is invoked on the file t.jpg, not on the snapshot frame of the tick: at two
states that differ only in the snapshot frame the detector receives the same
input, and at the concrete state whose snapshot frame is frame 1 while t.jpg
holds frame 0, the gate is open (distance 100 inside 50 to 200) and the
detector receives frame 0, which is not the snapshot frame 1. -/
theorem c1_detector_reads_saved_file :
    yolo_input ⟨true, some 1, 100, initial_range, "", some 0⟩ = some (some 0) ∧
    yolo_input ⟨true, some 2, 100, initial_range, "", some 0⟩ = some (some 0) ∧
    gate_open initial_range 100 = true ∧
    (some 0 : Option Nat) ≠ some 1 := by
  refine ⟨?_, ?_, by decide, by decide⟩ <;> simp [yolo_input, gate_open, initial_range]

/-- Classification of one tick used to state C7: the gate was closed, the
detector raised, the detector returned no labels, or it returned labels. -/
inductive TickOutcome
  | gateClosed
  | detectorFailed
  | noLabels
  | labelsFound (labels : List String)

/-- Outcome of one tick of update_gui at a given state and detector. -/
def tick_outcome (s : AppState) (detect : Option Nat → DetectResult) : TickOutcome :=
  if gate_open s.range s.latest_distance then
    match detect s.t_jpg with
    | .ok labels => if labels.isEmpty then .noLabels else .labelsFound labels
    | .failure => .detectorFailed
  else .gateClosed

/-- C7: on every running tick whose outcome is gate-closed, detector
failure, or empty detection labels, the warning is cleared on that same
tick: the warning text after the tick is the empty string. -/
theorem c7_warning_cleared_same_tick (s : AppState)
    (detect : Option Nat → DetectResult) (hrun : s.running = true)
    (h : tick_outcome s detect = .gateClosed ∨
      tick_outcome s detect = .detectorFailed ∨
      tick_outcome s detect = .noLabels) :
    (update_gui s detect).warning_text = "" := by
  unfold update_gui
  unfold tick_outcome at h
  rw [hrun]
  simp only [if_true]
  by_cases hg : gate_open s.range s.latest_distance
  · rw [if_pos hg]
    rw [if_pos hg] at h
    cases hd : detect s.t_jpg with
    | ok labels =>
      rw [hd] at h
      by_cases he : labels.isEmpty
      · simp [he]
      · simp [he] at h
    | failure => simp
  · rw [if_neg hg]

/-- Witness for C7: a running tick whose detector returns no labels clears a
previously set warning on that same tick. -/
theorem c7_warning_cleared_same_tick_witness :
    tick_outcome ⟨true, some 1, 100, initial_range, "DİKKAT: person tespit edildi!", some 0⟩
        (fun _ => DetectResult.ok []) = TickOutcome.noLabels ∧
    (update_gui ⟨true, some 1, 100, initial_range, "DİKKAT: person tespit edildi!", some 0⟩
        (fun _ => DetectResult.ok [])).warning_text = "" := by
  constructor
  · simp [tick_outcome, gate_open, initial_range]
  · exact c7_warning_cleared_same_tick _ _ rfl
      (Or.inr (Or.inr (by simp [tick_outcome, gate_open, initial_range])))

/-- Shared-distance effect of one iteration of CameraApp.lidar_loop,
src/main.py lines 312 to 318: when the polled batch is nonempty the shared
distance becomes its last element, otherwise the shared distance is left
untouched. -/
def lidar_iteration (latest : Int) (batch : List Nat) : Int :=
  match batch.getLast? with
  | some d => (d : Int)
  | none => latest

/-- Values an iteration of lidar_loop publishes to the shared state: the
loop body performs a single assignment of the last batch element, so at most
one value, and never an earlier element of the batch. -/
def lidar_iteration_writes (batch : List Nat) : List Int :=
  match batch.getLast? with
  | some d => [(d : Int)]
  | none => []

/-- C10: one poll of the lidar publishes only the last reading of a nonempty
batch, earlier readings of the batch are never published, and an empty batch
leaves the shared distance unchanged. -/
theorem c10_only_last_reading_published (latest : Int) (batch : List Nat) :
    (batch = [] → lidar_iteration latest batch = latest ∧
      lidar_iteration_writes batch = []) ∧
    (∀ d, batch.getLast? = some d →
      lidar_iteration latest batch = (d : Int) ∧
      lidar_iteration_writes batch = [(d : Int)]) ∧
    (lidar_iteration_writes batch).length ≤ 1 := by
  refine ⟨?_, ?_, ?_⟩
  · intro hb
    subst hb
    exact ⟨rfl, rfl⟩
  · intro d hd
    rw [lidar_iteration, lidar_iteration_writes, hd]
    exact ⟨rfl, rfl⟩
  · rw [lidar_iteration_writes]
    cases batch.getLast? <;> simp

/-- Witness for C10: polling a stream holding two valid packets with
distances 50 and 70 decodes the batch 50, 70, and the iteration publishes
only 70, the last reading of the batch. -/
theorem c10_only_last_reading_published_witness :
    (read_available [] [0x59, 0x59, 50, 0, 0, 0, 0, 0, 0,
        0x59, 0x59, 70, 0, 0, 0, 0, 0, 0]).1 = [50, 70] ∧
    ([50, 70] : List Nat).getLast? = some 70 ∧
    lidar_iteration 0 [50, 70] = 70 ∧
    lidar_iteration_writes [50, 70] = [70] := by
  refine ⟨by simp [read_available, parseBuf], by decide, ?_, ?_⟩
  · exact ((c10_only_last_reading_published 0 [50, 70]).2.1 70 (by decide)).1
  · exact ((c10_only_last_reading_published 0 [50, 70]).2.1 70 (by decide)).2

/-- Foreground colour of the warning label as far as flash_warning reads
it: the warning colour, the alert colour, or any other colour. -/
inductive FColor
  | warnCol
  | alertCol
  | otherCol
deriving DecidableEq

/-- Colour toggle of CameraApp.flash_warning, src/main.py line 506: the new
colour is WARNING_COLOR when the current one is ALERT_COLOR, otherwise it is
ALERT_COLOR. -/
def toggled : FColor → FColor
  | .alertCol => .warnCol
  | _ => .alertCol

/-- State touched by the flashing machinery.  timers is the queue of
scheduled flash_warning callbacks in firing order; each entry records, as
ghost data only (the source callbacks capture nothing at all), the value of
the generation counter at the moment the callback was scheduled.
generation is itself ghost state following the spec: it increments whenever
the alert transitions to active or to cleared; the source has no such
field, which is exactly what C3 is about. -/
structure FlashState where
  running : Bool
  warning_text : String
  fg : FColor
  timers : List Nat
  generation : Nat
deriving DecidableEq

/-- Body of CameraApp.flash_warning, src/main.py lines 503 to 508: when
running with a nonempty warning text it toggles the label colour and
schedules itself again after 500 ms; otherwise it does nothing and does not
reschedule.  The Bool records whether a toggle happened. -/
def flash_warning (s : FlashState) : FlashState × Bool :=
  if s.running = true ∧ s.warning_text ≠ "" then
    ({ s with fg := toggled s.fg, timers := s.timers ++ [s.generation] }, true)
  else (s, false)

/-- Events driving the flashing machinery.  A detect event is run_yolo with
nonempty labels, src/main.py lines 448 to 452: it stores the warning text
and calls flash_warning directly.  A clearTick event is any tick outcome
that clears the warning text.  A fire event is the oldest scheduled
flash_warning callback firing. -/
inductive FlashEv
  | detect (msg : String)
  | clearTick
  | fire

/-- One event of the flashing machinery.  The ghost generation counter is
bumped on transitions between cleared and active, as the spec prescribes;
everything else follows the source.  The Bool records whether the event
performed a toggle. -/
def flashStep (s : FlashState) : FlashEv → FlashState × Bool
  | .detect msg =>
    let g := if s.warning_text = "" then s.generation + 1 else s.generation
    flash_warning { s with warning_text := msg, generation := g }
  | .clearTick =>
    let g := if s.warning_text = "" then s.generation else s.generation + 1
    ({ s with warning_text := "", generation := g }, false)
  | .fire =>
    match s.timers with
    | [] => (s, false)
    | _ :: rest => flash_warning { s with timers := rest }

/-- Run of a sequence of flash events. -/
def runFlash (s : FlashState) : List FlashEv → FlashState
  | [] => s
  | e :: es => runFlash (flashStep s e).1 es

/-- Total number of toggles performed along a sequence of flash events. -/
def runFlashToggles (s : FlashState) : List FlashEv → Nat
  | [] => 0
  | e :: es =>
    cond (flashStep s e).2 1 0 + runFlashToggles (flashStep s e).1 es

/-- Flash state after the GUI is built and the system started: warning label
foreground WARNING_COLOR, empty warning text, no scheduled callback. -/
def initFlash : FlashState :=
  { running := true, warning_text := "", fg := .warnCol, timers := [], generation := 0 }

/-- C3, counterexample: after the trace detect A, clear, detect B the oldest
pending callback was scheduled during alert A (ghost generation 1) while the
current generation is 3 (alert B), yet when it fires it toggles and
reschedules itself, because the source callback only re-checks running and a
nonempty warning text and has no generation check; moreover two callback
chains are live at once for the single active alert B, so the flashing is
not limited to one toggle per 500 ms. -/
theorem c3_stale_toggle_counterexample :
    (runFlash initFlash [.detect "A", .clearTick, .detect "B"]).timers = [1, 3] ∧
    (runFlash initFlash [.detect "A", .clearTick, .detect "B"]).generation = 3 ∧
    (runFlash initFlash [.detect "A", .clearTick, .detect "B"]).warning_text = "B" ∧
    (flashStep (runFlash initFlash [.detect "A", .clearTick, .detect "B"]) .fire).2 = true ∧
    (flashStep (runFlash initFlash [.detect "A", .clearTick, .detect "B"]) .fire).1.timers = [3, 3] := by
  refine ⟨?_, ?_, ?_, ?_, ?_⟩ <;> decide

theorem fire_noop_when_cleared (s : FlashState) (h : s.warning_text = "") :
    flashStep s .fire = ({ s with timers := s.timers.tail }, false) := by
  obtain ⟨running, text, fg, timers, gen⟩ := s
  cases timers <;> simp_all [flashStep, flash_warning]

theorem fires_never_toggle_when_cleared (n : Nat) :
    ∀ s : FlashState, s.warning_text = "" →
      runFlashToggles s (List.replicate n .fire) = 0 := by
  induction n with
  | zero => intro s h; rfl
  | succ n ih =>
    intro s h
    rw [List.replicate_succ, runFlashToggles, fire_noop_when_cleared s h]
    show 0 + runFlashToggles { s with timers := s.timers.tail } (List.replicate n .fire) = 0
    rw [Nat.zero_add]
    exact ih _ h

/-- C3, amended: each fired callback re-checks at firing time that the
system is running and the warning text is nonempty; with the warning
cleared, a firing callback performs no toggle, changes neither the colour
nor the text, and does not reschedule itself (the queue only shrinks), and
as long as the alert stays cleared no sequence of fires ever toggles.  There
is no generation check in the source, so this re-check is all that stops
stale callbacks; see the counterexample for what happens when a new alert is
active at firing time. -/
theorem c3_cleared_alert_stops_toggles (s : FlashState) (h : s.warning_text = "") :
    (flashStep s .fire).2 = false ∧
    (flashStep s .fire).1.timers = s.timers.tail ∧
    (flashStep s .fire).1.fg = s.fg ∧
    (flashStep s .fire).1.warning_text = "" ∧
    (∀ n : Nat, runFlashToggles s (List.replicate n .fire) = 0) := by
  refine ⟨?_, ?_, ?_, ?_, ?_⟩
  · rw [fire_noop_when_cleared s h]
  · rw [fire_noop_when_cleared s h]
  · rw [fire_noop_when_cleared s h]
  · rw [fire_noop_when_cleared s h]
    exact h
  · intro n
    exact fires_never_toggle_when_cleared n s h

/-- Witness for C3: at a cleared state with two pending callbacks, a firing
callback performs no toggle, pops the queue without rescheduling, and three
consecutive fires perform no toggle at all. -/
theorem c3_cleared_alert_stops_toggles_witness :
    (FlashState.mk true "" .alertCol [0, 2] 5).warning_text = "" ∧
    (flashStep ⟨true, "", .alertCol, [0, 2], 5⟩ .fire).2 = false ∧
    (flashStep ⟨true, "", .alertCol, [0, 2], 5⟩ .fire).1.timers = [2] ∧
    runFlashToggles ⟨true, "", .alertCol, [0, 2], 5⟩ (List.replicate 3 .fire) = 0 := by
  have h := c3_cleared_alert_stops_toggles ⟨true, "", .alertCol, [0, 2], 5⟩ rfl
  refine ⟨rfl, h.1, ?_, h.2.2.2.2 3⟩
  rw [h.2.1]
  rfl

/-- The three threads of the pipeline: the camera loop, the lidar loop and
the scheduler tick running update_gui. -/
inductive TId
  | cam
  | lid
  | gui
deriving DecidableEq

/-- Atomic actions on the shared state and the single lock, as performed by
camera_loop, lidar_loop and update_gui, src/main.py lines 306 to 326:
acquire the lock, write the frame field, write the distance field, read the
frame field into a snapshot local, read the distance field into a snapshot
local, release the lock. -/
inductive Instr
  | acq
  | wrFrame (v : Nat)
  | wrDist (v : Int)
  | rdFrame
  | rdDist
  | rel
deriving DecidableEq

/-- Configuration of the interleaving model: the two fields of the shared
state, the holder of the single lock, the remaining instruction list of each
thread, and the two snapshot locals of update_gui. -/
structure SnapCfg where
  frame : Nat
  dist : Int
  lock : Option TId
  camProg : List Instr
  lidProg : List Instr
  guiProg : List Instr
  localFrame : Nat
  localDist : Int
deriving DecidableEq

/-- Remaining program of a thread. -/
def prog (c : SnapCfg) : TId → List Instr
  | .cam => c.camProg
  | .lid => c.lidProg
  | .gui => c.guiProg

/-- Replace the remaining program of a thread. -/
def setProg (c : SnapCfg) : TId → List Instr → SnapCfg
  | .cam, p => { c with camProg := p }
  | .lid, p => { c with lidProg := p }
  | .gui, p => { c with guiProg := p }

/-- One scheduling step: the chosen thread executes its next atomic action.
Acquiring blocks while any thread holds the lock, releasing by a non-holder
does nothing, and memory accesses touch the shared fields directly with no
lock check, exactly as Python attribute reads and writes do. -/
def step (c : SnapCfg) (t : TId) : SnapCfg :=
  match prog c t with
  | [] => c
  | i :: rest =>
    match i with
    | .acq => if c.lock = none then { setProg c t rest with lock := some t } else c
    | .wrFrame v => { setProg c t rest with frame := v }
    | .wrDist v => { setProg c t rest with dist := v }
    | .rdFrame => { setProg c t rest with localFrame := c.frame }
    | .rdDist => { setProg c t rest with localDist := c.dist }
    | .rel => if c.lock = some t then { setProg c t rest with lock := none } else c

/-- Run of the model under a schedule. -/
def run (c : SnapCfg) : List TId → SnapCfg
  | [] => c
  | t :: ts => run (step c t) ts

/-- Camera producer loop, src/main.py lines 306 to 310: each captured frame
is published by one write performed entirely under the lock (the frame copy
happens before the with-block is entered). -/
def camProgOf : List Nat → List Instr
  | [] => []
  | v :: vs => .acq :: .wrFrame v :: .rel :: camProgOf vs

/-- Lidar producer loop, src/main.py lines 312 to 318: each nonempty batch
publishes its last reading by one write performed entirely under the
lock. -/
def lidProgOf : List Int → List Instr
  | [] => []
  | v :: vs => .acq :: .wrDist v :: .rel :: lidProgOf vs

/-- Snapshot block of update_gui, src/main.py lines 324 to 326: one lock
acquisition copying first the frame, then the distance, then releasing. -/
def guiSnapshotProg : List Instr := [.acq, .rdFrame, .rdDist, .rel]

/-- Initial configuration: shared fields hold their startup values, the lock
is free, the producers hold their full publication lists, the scheduler is
about to take one snapshot. -/
def initCfg (f0 : Nat) (d0 : Int) (vs : List Nat) (ws : List Int) : SnapCfg :=
  { frame := f0, dist := d0, lock := none, camProg := camProgOf vs,
    lidProg := lidProgOf ws, guiProg := guiSnapshotProg,
    localFrame := f0, localDist := d0 }

/-- Reachable shapes of the camera thread: at a loop boundary not holding
the lock, about to write holding the lock, or about to release holding the
lock. -/
def camPhase (c : SnapCfg) : Prop :=
  ((∃ vs, c.camProg = camProgOf vs) ∧ c.lock ≠ some .cam) ∨
  ((∃ v vs, c.camProg = .wrFrame v :: .rel :: camProgOf vs) ∧ c.lock = some .cam) ∨
  ((∃ vs, c.camProg = .rel :: camProgOf vs) ∧ c.lock = some .cam)

/-- Reachable shapes of the lidar thread, as for the camera thread. -/
def lidPhase (c : SnapCfg) : Prop :=
  ((∃ ws, c.lidProg = lidProgOf ws) ∧ c.lock ≠ some .lid) ∨
  ((∃ w ws, c.lidProg = .wrDist w :: .rel :: lidProgOf ws) ∧ c.lock = some .lid) ∨
  ((∃ ws, c.lidProg = .rel :: lidProgOf ws) ∧ c.lock = some .lid)

/-- Reachable shapes of the scheduler snapshot: before acquiring, and then
each point inside the critical section, where the locals copied so far still
equal the shared fields because no producer can write while the scheduler
holds the lock. -/
def guiPhase (c : SnapCfg) : Prop :=
  (c.guiProg = guiSnapshotProg ∧ c.lock ≠ some .gui) ∨
  (c.guiProg = [.rdFrame, .rdDist, .rel] ∧ c.lock = some .gui) ∨
  (c.guiProg = [.rdDist, .rel] ∧ c.lock = some .gui ∧ c.localFrame = c.frame) ∨
  (c.guiProg = [.rel] ∧ c.lock = some .gui ∧ c.localFrame = c.frame ∧
    c.localDist = c.dist) ∨
  (c.guiProg = [] ∧ c.lock ≠ some .gui)

/-- Reachability invariant of the model. -/
def Inv (c : SnapCfg) : Prop := camPhase c ∧ lidPhase c ∧ guiPhase c

theorem step_camProg_other (c : SnapCfg) (t : TId) (ht : t ≠ .cam) :
    (step c t).camProg = c.camProg := by
  rcases hp : prog c t with _ | ⟨i, rest⟩
  · simp [step, hp]
  · cases t with
    | cam => exact absurd rfl ht
    | lid => cases i <;> simp [step, hp, setProg] <;> split <;> simp
    | gui => cases i <;> simp [step, hp, setProg] <;> split <;> simp

theorem step_lidProg_other (c : SnapCfg) (t : TId) (ht : t ≠ .lid) :
    (step c t).lidProg = c.lidProg := by
  rcases hp : prog c t with _ | ⟨i, rest⟩
  · simp [step, hp]
  · cases t with
    | lid => exact absurd rfl ht
    | cam => cases i <;> simp [step, hp, setProg] <;> split <;> simp
    | gui => cases i <;> simp [step, hp, setProg] <;> split <;> simp

theorem step_guiProg_other (c : SnapCfg) (t : TId) (ht : t ≠ .gui) :
    (step c t).guiProg = c.guiProg := by
  rcases hp : prog c t with _ | ⟨i, rest⟩
  · simp [step, hp]
  · cases t with
    | gui => exact absurd rfl ht
    | cam => cases i <;> simp [step, hp, setProg] <;> split <;> simp
    | lid => cases i <;> simp [step, hp, setProg] <;> split <;> simp

theorem step_lock_other (c : SnapCfg) (t u : TId) (htu : t ≠ u) :
    ((step c t).lock = some u ↔ c.lock = some u) := by
  rcases hp : prog c t with _ | ⟨i, rest⟩
  · simp [step, hp]
  · cases i <;> cases t <;> simp [step, hp, setProg]
    all_goals constructor
    all_goals intro h
    all_goals first
      | rfl
      | assumption
      | (split at h <;> simp_all)
      | (split <;> simp_all)

theorem camPhase_step_other (c : SnapCfg) (t : TId) (ht : t ≠ .cam)
    (h : camPhase c) : camPhase (step c t) := by
  unfold camPhase at *
  rw [step_camProg_other c t ht]
  rcases h with ⟨hp, hl⟩ | ⟨hp, hl⟩ | ⟨hp, hl⟩
  · exact Or.inl ⟨hp, fun hc => hl ((step_lock_other c t .cam ht).mp hc)⟩
  · exact Or.inr (Or.inl ⟨hp, (step_lock_other c t .cam ht).mpr hl⟩)
  · exact Or.inr (Or.inr ⟨hp, (step_lock_other c t .cam ht).mpr hl⟩)

theorem lidPhase_step_other (c : SnapCfg) (t : TId) (ht : t ≠ .lid)
    (h : lidPhase c) : lidPhase (step c t) := by
  unfold lidPhase at *
  rw [step_lidProg_other c t ht]
  rcases h with ⟨hp, hl⟩ | ⟨hp, hl⟩ | ⟨hp, hl⟩
  · exact Or.inl ⟨hp, fun hc => hl ((step_lock_other c t .lid ht).mp hc)⟩
  · exact Or.inr (Or.inl ⟨hp, (step_lock_other c t .lid ht).mpr hl⟩)
  · exact Or.inr (Or.inr ⟨hp, (step_lock_other c t .lid ht).mpr hl⟩)

theorem step_cam_stutter_locked_out (c : SnapCfg) (h : camPhase c)
    (hl : c.lock ≠ none) (hnc : c.lock ≠ some .cam) : step c .cam = c := by
  rcases h with ⟨⟨vs, hp⟩, _⟩ | ⟨hp, hcl⟩ | ⟨hp, hcl⟩
  · cases vs with
    | nil => simp [step, prog, hp, camProgOf]
    | cons v vs => simp [step, prog, hp, camProgOf, hl]
  · exact absurd hcl hnc
  · exact absurd hcl hnc

theorem step_lid_stutter_locked_out (c : SnapCfg) (h : lidPhase c)
    (hl : c.lock ≠ none) (hnc : c.lock ≠ some .lid) : step c .lid = c := by
  rcases h with ⟨⟨ws, hp⟩, _⟩ | ⟨hp, hcl⟩ | ⟨hp, hcl⟩
  · cases ws with
    | nil => simp [step, prog, hp, lidProgOf]
    | cons w ws => simp [step, prog, hp, lidProgOf, hl]
  · exact absurd hcl hnc
  · exact absurd hcl hnc

theorem guiPhase_step_producer (c : SnapCfg) (t : TId) (ht : t ≠ .gui)
    (h : Inv c) : guiPhase (step c t) := by
  obtain ⟨hcam, hlid, hgui⟩ := h
  by_cases hg : c.lock = some .gui
  · have hstut : step c t = c := by
      cases t with
      | cam => exact step_cam_stutter_locked_out c hcam (by simp [hg]) (by simp [hg])
      | lid => exact step_lid_stutter_locked_out c hlid (by simp [hg]) (by simp [hg])
      | gui => exact absurd rfl ht
    rw [hstut]
    exact hgui
  · rcases hgui with ⟨hp, _⟩ | ⟨hp, hl⟩ | ⟨hp, hl, _⟩ | ⟨hp, hl, _, _⟩ | ⟨hp, _⟩
    · exact Or.inl ⟨by rw [step_guiProg_other c t ht]; exact hp,
        fun hc => hg ((step_lock_other c t .gui ht).mp hc)⟩
    · exact absurd hl hg
    · exact absurd hl hg
    · exact absurd hl hg
    · exact Or.inr (Or.inr (Or.inr (Or.inr
        ⟨by rw [step_guiProg_other c t ht]; exact hp,
          fun hc => hg ((step_lock_other c t .gui ht).mp hc)⟩)))

theorem inv_step (c : SnapCfg) (t : TId) (h : Inv c) : Inv (step c t) := by
  obtain ⟨hcam, hlid, hgui⟩ := h
  cases t with
  | cam =>
    refine ⟨?_, lidPhase_step_other c .cam (by decide) hlid,
      guiPhase_step_producer c .cam (by decide) ⟨hcam, hlid, hgui⟩⟩
    rcases hcam with ⟨⟨vs, hp⟩, hnl⟩ | ⟨⟨v, vs, hp⟩, hl⟩ | ⟨⟨vs, hp⟩, hl⟩
    · cases vs with
      | nil =>
        have hs : step c .cam = c := by simp [step, prog, hp, camProgOf]
        rw [hs]
        exact Or.inl ⟨⟨[], hp⟩, hnl⟩
      | cons v vs =>
        by_cases h0 : c.lock = none
        · have hs : step c .cam =
              { setProg c .cam (.wrFrame v :: .rel :: camProgOf vs) with lock := some .cam } := by
            simp [step, prog, hp, camProgOf, h0]
          rw [hs]
          exact Or.inr (Or.inl ⟨⟨v, vs, by simp [setProg]⟩, by simp⟩)
        · have hs : step c .cam = c := by simp [step, prog, hp, camProgOf, h0]
          rw [hs]
          exact Or.inl ⟨⟨v :: vs, hp⟩, hnl⟩
    · have hs : step c .cam = { setProg c .cam (.rel :: camProgOf vs) with frame := v } := by
        simp [step, prog, hp]
      rw [hs]
      exact Or.inr (Or.inr ⟨⟨vs, by simp [setProg]⟩, by simp [setProg, hl]⟩)
    · have hs : step c .cam = { setProg c .cam (camProgOf vs) with lock := none } := by
        simp [step, prog, hp, hl]
      rw [hs]
      exact Or.inl ⟨⟨vs, by simp [setProg]⟩, by simp⟩
  | lid =>
    refine ⟨camPhase_step_other c .lid (by decide) hcam, ?_,
      guiPhase_step_producer c .lid (by decide) ⟨hcam, hlid, hgui⟩⟩
    rcases hlid with ⟨⟨ws, hp⟩, hnl⟩ | ⟨⟨w, ws, hp⟩, hl⟩ | ⟨⟨ws, hp⟩, hl⟩
    · cases ws with
      | nil =>
        have hs : step c .lid = c := by simp [step, prog, hp, lidProgOf]
        rw [hs]
        exact Or.inl ⟨⟨[], hp⟩, hnl⟩
      | cons w ws =>
        by_cases h0 : c.lock = none
        · have hs : step c .lid =
              { setProg c .lid (.wrDist w :: .rel :: lidProgOf ws) with lock := some .lid } := by
            simp [step, prog, hp, lidProgOf, h0]
          rw [hs]
          exact Or.inr (Or.inl ⟨⟨w, ws, by simp [setProg]⟩, by simp⟩)
        · have hs : step c .lid = c := by simp [step, prog, hp, lidProgOf, h0]
          rw [hs]
          exact Or.inl ⟨⟨w :: ws, hp⟩, hnl⟩
    · have hs : step c .lid = { setProg c .lid (.rel :: lidProgOf ws) with dist := w } := by
        simp [step, prog, hp]
      rw [hs]
      exact Or.inr (Or.inr ⟨⟨ws, by simp [setProg]⟩, by simp [setProg, hl]⟩)
    · have hs : step c .lid = { setProg c .lid (lidProgOf ws) with lock := none } := by
        simp [step, prog, hp, hl]
      rw [hs]
      exact Or.inl ⟨⟨ws, by simp [setProg]⟩, by simp⟩
  | gui =>
    refine ⟨camPhase_step_other c .gui (by decide) hcam,
      lidPhase_step_other c .gui (by decide) hlid, ?_⟩
    rcases hgui with ⟨hp, hnl⟩ | ⟨hp, hl⟩ | ⟨hp, hl, hf⟩ | ⟨hp, hl, hf, hd⟩ | ⟨hp, hnl⟩
    · by_cases h0 : c.lock = none
      · have hs : step c .gui =
            { setProg c .gui [.rdFrame, .rdDist, .rel] with lock := some .gui } := by
          simp [step, prog, hp, guiSnapshotProg, h0]
        rw [hs]
        exact Or.inr (Or.inl ⟨by simp [setProg], by simp⟩)
      · have hs : step c .gui = c := by simp [step, prog, hp, guiSnapshotProg, h0]
        rw [hs]
        exact Or.inl ⟨hp, hnl⟩
    · have hs : step c .gui = { setProg c .gui [.rdDist, .rel] with localFrame := c.frame } := by
        simp [step, prog, hp]
      rw [hs]
      exact Or.inr (Or.inr (Or.inl ⟨by simp [setProg], by simp [setProg, hl], by simp [setProg]⟩))
    · have hs : step c .gui = { setProg c .gui [.rel] with localDist := c.dist } := by
        simp [step, prog, hp]
      rw [hs]
      exact Or.inr (Or.inr (Or.inr (Or.inl ⟨by simp [setProg], by simp [setProg, hl],
        by simp [setProg, hf], by simp [setProg]⟩)))
    · have hs : step c .gui = { setProg c .gui [] with lock := none } := by
        simp [step, prog, hp, hl]
      rw [hs]
      exact Or.inr (Or.inr (Or.inr (Or.inr ⟨by simp [setProg], by simp⟩)))
    · have hs : step c .gui = c := by simp [step, prog, hp]
      rw [hs]
      exact Or.inr (Or.inr (Or.inr (Or.inr ⟨hp, hnl⟩)))

theorem inv_run (ts : List TId) : ∀ c : SnapCfg, Inv c → Inv (run c ts) := by
  induction ts with
  | nil => intro c h; exact h
  | cons t ts ih => intro c h; exact ih _ (inv_step c t h)

theorem inv_initCfg (f0 : Nat) (d0 : Int) (vs : List Nat) (ws : List Int) :
    Inv (initCfg f0 d0 vs ws) :=
  ⟨Or.inl ⟨⟨vs, rfl⟩, by simp [initCfg]⟩,
   Or.inl ⟨⟨ws, rfl⟩, by simp [initCfg]⟩,
   Or.inl ⟨rfl, by simp [initCfg]⟩⟩

theorem camProgOf_ne_wr (vs : List Nat) (v : Nat) (rest : List Instr) :
    camProgOf vs ≠ .wrFrame v :: rest := by
  cases vs <;> simp [camProgOf]

theorem lidProgOf_ne_wr (ws : List Int) (w : Int) (rest : List Instr) :
    lidProgOf ws ≠ .wrDist w :: rest := by
  cases ws <;> simp [lidProgOf]

/-- C9: in every interleaved execution of the camera loop, the lidar loop
and one scheduler snapshot, a producer whose next action is a write to a
shared field holds the single lock at that moment (every producer write
happens under the lock), and when the scheduler has copied both fields of
its snapshot and still holds the lock, both locals equal the current shared
fields: the pair was captured under a single lock acquisition with no
intervening producer write, so the snapshot is never torn and each field is
individually the latest published value. -/
theorem c9_snapshot_under_one_lock (f0 : Nat) (d0 : Int) (vs : List Nat)
    (ws : List Int) (sched : List TId) :
    (∀ v rest, (run (initCfg f0 d0 vs ws) sched).camProg = .wrFrame v :: rest →
      (run (initCfg f0 d0 vs ws) sched).lock = some .cam) ∧
    (∀ w rest, (run (initCfg f0 d0 vs ws) sched).lidProg = .wrDist w :: rest →
      (run (initCfg f0 d0 vs ws) sched).lock = some .lid) ∧
    ((run (initCfg f0 d0 vs ws) sched).guiProg = [.rel] →
      (run (initCfg f0 d0 vs ws) sched).localFrame = (run (initCfg f0 d0 vs ws) sched).frame ∧
      (run (initCfg f0 d0 vs ws) sched).localDist = (run (initCfg f0 d0 vs ws) sched).dist) := by
  obtain ⟨hcam, hlid, hgui⟩ := inv_run sched _ (inv_initCfg f0 d0 vs ws)
  refine ⟨?_, ?_, ?_⟩
  · intro v rest hp
    rcases hcam with ⟨⟨vs2, hp2⟩, _⟩ | ⟨⟨v2, vs2, hp2⟩, hl⟩ | ⟨⟨vs2, hp2⟩, hl⟩
    · exact absurd (hp2 ▸ hp : camProgOf vs2 = _) (camProgOf_ne_wr vs2 v rest)
    · exact hl
    · rw [hp] at hp2
      simp at hp2
  · intro w rest hp
    rcases hlid with ⟨⟨ws2, hp2⟩, _⟩ | ⟨⟨w2, ws2, hp2⟩, hl⟩ | ⟨⟨ws2, hp2⟩, hl⟩
    · exact absurd (hp2 ▸ hp : lidProgOf ws2 = _) (lidProgOf_ne_wr ws2 w rest)
    · exact hl
    · rw [hp] at hp2
      simp at hp2
  · intro hp
    rcases hgui with ⟨hp2, _⟩ | ⟨hp2, _⟩ | ⟨hp2, _, _⟩ | ⟨hp2, _, hf, hd⟩ | ⟨hp2, _⟩
    · rw [hp] at hp2
      simp [guiSnapshotProg] at hp2
    · rw [hp] at hp2
      simp at hp2
    · rw [hp] at hp2
      simp at hp2
    · exact ⟨hf, hd⟩
    · rw [hp] at hp2
      simp at hp2

/-- Witness for C9: under the schedule that lets the scheduler acquire and
copy both fields, the snapshot position is reached and both locals equal the
shared fields. -/
theorem c9_snapshot_under_one_lock_witness :
    (run (initCfg 7 3 [1] [2]) [.gui, .gui, .gui]).guiProg = [Instr.rel] ∧
    (run (initCfg 7 3 [1] [2]) [.gui, .gui, .gui]).localFrame =
      (run (initCfg 7 3 [1] [2]) [.gui, .gui, .gui]).frame ∧
    (run (initCfg 7 3 [1] [2]) [.gui, .gui, .gui]).localDist =
      (run (initCfg 7 3 [1] [2]) [.gui, .gui, .gui]).dist := by
  have h := (c9_snapshot_under_one_lock 7 3 [1] [2] [.gui, .gui, .gui]).2.2 (by decide)
  exact ⟨by decide, h.1, h.2⟩

end PiFusion
